import Mathlib

/-!
Shallow embedding of the backend in `src/main.py` (FastAPI service with a
leaderboard endpoint and a video download-and-stream endpoint), together with
proofs settling the specification claims about it.

The embedding covers:
* the `GET /api/leaderboard` handler `get_leaderboard` (lines 91-111), with
  Python `int(...)` conversion, `dict.get` defaults, `sorted` with a tuple
  key, and Python list slicing modelled explicitly;
* the allow-list regular expression `YOUTUBE_URL_RE` (line 115) as a decision
  procedure on strings;
* the `GET /api/download` handler `download_youtube` (lines 118-186) as a
  function of the request URL and an environment describing the external
  collaborators (the retrieval engine, the filesystem and the HTTP client),
  recording the side effects (scratch-directory creation, engine invocation,
  cleanup attempts) the claims talk about.
-/

namespace Main

/-! ### Python values and `int(...)` conversion -/

/-- A Python value held in a stored score document: an integer or a string.
(Stored documents come back from the document store untyped, so any field may
hold a non-integer; a string is the representative malformed value, and any
other non-integer type behaves the same for the claims: `int(...)` raises.) -/
inductive PyVal where
  | vInt (n : Int)
  | vStr (s : String)
deriving DecidableEq, Repr

/-- Continuation of a Python integer-literal digit run: `(digit | _ digit)*`
(single underscores are only allowed between digits). -/
def digitsRest : List Char → Bool
  | [] => true
  | '_' :: c :: cs => c.isDigit && digitsRest cs
  | c :: cs => c.isDigit && digitsRest cs

/-- Numeric value of a digit run, skipping grouping underscores. -/
def digitsVal (acc : Nat) : List Char → Nat
  | [] => acc
  | c :: cs => if c = '_' then digitsVal acc cs else digitsVal (acc * 10 + (c.toNat - 48)) cs

/-- Python `int(s)` for a string `s`: optional surrounding whitespace, an
optional sign, then a nonempty digit run with single underscores allowed
between digits; anything else raises `ValueError`, modelled as `none`. -/
def pyIntOfString (s : String) : Option Int :=
  let l := ((s.data.dropWhile Char.isWhitespace).reverse.dropWhile Char.isWhitespace).reverse
  let signed : Bool × List Char :=
    match l with
    | '-' :: rest => (true, rest)
    | '+' :: rest => (false, rest)
    | rest => (false, rest)
  match signed with
  | (neg, c :: cs) =>
    if c.isDigit && digitsRest cs then
      let n : Nat := digitsVal 0 (c :: cs)
      some (if neg then -(n : Int) else (n : Int))
    else none
  | (_, []) => none

/-- Python `int(v)` on a stored value: an `int` is returned unchanged, a
string must parse as an integer literal. -/
def pyToInt : PyVal → Option Int
  | .vInt n => some n
  | .vStr s => pyIntOfString s

/-- `int(d.get(key, default))` with an integer literal `default`: a missing
field yields the default (already an `int`), a present field must convert. -/
def getIntField (f : Option PyVal) (dflt : Int) : Option Int :=
  match f with
  | none => some dflt
  | some v => pyToInt v

/-! ### Stored score documents and the leaderboard handler -/

/-- A document of the `"score"` collection as returned by `get_documents`.
Each field may be absent (`none`) or hold an arbitrary value. -/
structure StoredDoc where
  name : Option PyVal
  points : Option PyVal
  level : Option PyVal
  duration_ms : Option PyVal
deriving DecidableEq, Repr

/-- The `sorted` key of line 98:
`(-int(d.get("points", 0)), int(d.get("duration_ms", 1_000_000)))`.
`none` is a raised `ValueError`/`TypeError` from `int(...)`. -/
def sortKey (d : StoredDoc) : Option (Int × Int) :=
  match getIntField d.points 0, getIntField d.duration_ms 1000000 with
  | some p, some dur => some (-p, dur)
  | _, _ => none

/-- Python `<=` on a pair of ints (tuple comparison): lexicographic. -/
def keyLE (a b : Int × Int) : Bool :=
  decide (a.1 < b.1) || (decide (a.1 = b.1) && decide (a.2 ≤ b.2))

/-- Ordering of `(key, document)` pairs, as used by `sorted(docs, key=...)`:
compare the precomputed keys. -/
def pairLE (a b : (Int × Int) × StoredDoc) : Bool := keyLE a.1 b.1

/-- One element of the JSON `items` array built on lines 100-108. -/
structure Entry where
  name : PyVal
  points : Int
  level : Int
  duration_ms : Int
deriving DecidableEq, Repr

/-- One element of the `top` list comprehension (lines 101-106): each
`int(d.get(...))` may raise; `d.get("name", "Player")` is not converted. -/
def mkEntry (d : StoredDoc) : Option Entry :=
  match getIntField d.points 0, getIntField d.level 1, getIntField d.duration_ms 0 with
  | some p, some l, some dm =>
    some { name := d.name.getD (.vStr "Player"), points := p, level := l, duration_ms := dm }
  | _, _, _ => none

/-- Run `f` over the list in order, raising at the first element where `f`
raises — the evaluation order of `sorted`'s per-element key calls and of the
list comprehension. -/
def mapOrErr (f : α → Option β) (msg : String) : List α → Except String (List β)
  | [] => .ok []
  | a :: as =>
    match f a with
    | none => .error msg
    | some b =>
      match mapOrErr f msg as with
      | .ok bs => .ok (b :: bs)
      | .error e => .error e

/-- Python list slicing `l[:limit]` for an `int` limit: a nonnegative limit
keeps the first `limit` elements, a negative limit `-k` drops the last `k`. -/
def pySlice (l : List α) (limit : Int) : List α :=
  if 0 ≤ limit then l.take limit.toNat else l.take (l.length - (-limit).toNat)

/-- The evaluation of `sorted`'s key for one document, paired with the
document it decorates (the decorate step of a key-based sort). -/
def keyedOf (d : StoredDoc) : Option ((Int × Int) × StoredDoc) :=
  (sortKey d).map (fun k => (k, d))

/-- The `GET /api/leaderboard` handler body (lines 92-111) applied to the
documents returned by `get_documents("score", {})`. `sorted` first computes
every element's key (raising on the first bad one), then sorts stably by the
key tuple; the comprehension then rebuilds each kept document, where
`int(...)` may raise again. `.error` is the `except` branch: it becomes
`HTTPException(status_code=500, detail=str(e))`. -/
def get_leaderboard (docs : List StoredDoc) (limit : Int) : Except String (List Entry) :=
  match mapOrErr keyedOf "invalid literal for int()" docs with
  | .error e => .error e
  | .ok keyed =>
    let docs_sorted := (keyed.mergeSort pairLE).map Prod.snd
    mapOrErr mkEntry "invalid literal for int()" (pySlice docs_sorted limit)

/-- The handler as called without a `limit` query parameter: the FastAPI
signature `limit: int = 20` supplies the default. -/
def get_leaderboard_default (docs : List StoredDoc) : Except String (List Entry) :=
  get_leaderboard docs 20

/-- The ranking order the specification claims for the returned sequence:
higher `points` first and, among equal `points`, smaller `duration_ms`
first. -/
def rankedBefore (a b : Entry) : Prop :=
  b.points < a.points ∨ (a.points = b.points ∧ a.duration_ms ≤ b.duration_ms)

/-- Order on documents induced by their (successfully computed) sort keys. -/
def docOrder (d d' : StoredDoc) : Prop :=
  ∀ k k', sortKey d = some k → sortKey d' = some k' → keyLE k k' = true

/-! ### The URL allow-list `YOUTUBE_URL_RE` -/

/-- Drop a literal pattern from the head of the input, or fail — the matching
of a literal run inside the regular expression. -/
def stripPre : List Char → List Char → Option (List Char)
  | [], s => some s
  | _ :: _, [] => none
  | p :: ps, c :: cs => if p = c then stripPre ps cs else none

def httpsP : List Char := ['h', 't', 't', 'p', 's', ':', '/', '/']

def httpP : List Char := ['h', 't', 't', 'p', ':', '/', '/']

def wwwP : List Char := ['w', 'w', 'w', '.']

def hostYoutubeCom : List Char := ['y', 'o', 'u', 't', 'u', 'b', 'e', '.', 'c', 'o', 'm']

def hostYoutuBe : List Char := ['y', 'o', 'u', 't', 'u', '.', 'b', 'e']

def ytcSlash : List Char := hostYoutubeCom ++ ['/']

def ytbSlash : List Char := hostYoutuBe ++ ['/']

/-- Matching of the group `(https?://)?`. The alternatives `www.`, `youtube.com`
and `youtu.be` that could follow an untaken group start with `w` or `y`, never
`h`, so committing to a scheme whenever one is present is equivalent to the
regex engine's backtracking. -/
def afterScheme (s : List Char) : List Char :=
  match stripPre httpsP s with
  | some r => r
  | none =>
    match stripPre httpP s with
    | some r => r
    | none => s

/-- Matching of the group `(www\.)?`; both hosts start with `y`, never `w`,
so committing is again equivalent to backtracking. -/
def afterWWW (s : List Char) : List Char :=
  match stripPre wwwP s with
  | some r => r
  | none => s

/-- Matching of `.+` at the tail: at least one character, and `.` does not
match a newline, so the first remaining character must not be `\n`. With no
end anchor in the pattern, nothing beyond that first character is examined. -/
def tailDotPlus : List Char → Bool
  | [] => false
  | c :: _ => c != '\n'

/-- Matching of `(youtube\.com|youtu\.be)/.+`; the two host literals diverge
at their sixth character, so at most one can head the input. -/
def hostAndPath (s : List Char) : Bool :=
  match stripPre ytcSlash s with
  | some r => tailDotPlus r
  | none =>
    match stripPre ytbSlash s with
    | some r => tailDotPlus r
    | none => false

/-- The characters of the URL, lowercased: `re.IGNORECASE` matching against
the all-lowercase literals of the pattern (ASCII case folding; the pattern's
literals are ASCII). -/
def lowerData (url : String) : List Char := url.data.map Char.toLower

/-- `YOUTUBE_URL_RE.match(url)` (line 115):
`^(https?://)?(www\.)?(youtube\.com|youtu\.be)/.+` with `re.IGNORECASE`,
modelled by lowercasing the input and matching the pattern from the start of
the string. -/
def YOUTUBE_URL_RE_match (url : String) : Bool :=
  hostAndPath (afterWWW (afterScheme (lowerData url)))

/-- The acceptance condition exactly as the claim words it: the URL consists,
case-insensitively, of an optional `http://` or `https://` scheme, an
optional `www.`, a host equal to `youtube.com` or `youtu.be`, a `/`, and a
non-empty remainder. -/
def claimedUrlAccept (url : String) : Prop :=
  ∃ sch www host rest : List Char,
    (sch = [] ∨ sch = httpP ∨ sch = httpsP) ∧
    (www = [] ∨ www = wwwP) ∧
    (host = hostYoutubeCom ∨ host = hostYoutuBe) ∧
    rest ≠ [] ∧
    lowerData url = sch ++ www ++ host ++ '/' :: rest

/-! ### The download endpoint -/

/-- Outcome of `run_download()` (lines 144-151), the call into the retrieval
engine: the final file path on success (including the `.mp4` adjustment done
inside `run_download`), a `yt_dlp.utils.DownloadError`, or any other raised
exception. -/
inductive FetchResult where
  | ok (filepath : String)
  | downloadError (msg : String)
  | otherError (msg : String)
deriving DecidableEq, Repr

/-- Environment of one `GET /api/download` request: the behaviour of the
external collaborators the handler interacts with. `consumerBudget none`
means the client drains the whole stream; `some k` means the transport fails
(disconnect or downstream write error) when chunk `k+1` is requested. -/
structure Env where
  importable : Bool
  importErrMsg : String
  fetch : FetchResult
  fileExists : Bool
  fileChunks : Nat
  consumerBudget : Option Nat
  removeFails : Bool
  rmdirFails : Bool
deriving DecidableEq, Repr

/-- The `while True` read/yield loop of `file_iterator` (lines 162-166): how
many chunks are handed to the transport before the loop ends, either because
the file is exhausted (`read` returns empty) or because the consumer stops
(the generator is closed at the `yield`). -/
def deliverLoop : Nat → Option Nat → Nat
  | 0, _ => 0
  | _ + 1, some 0 => 0
  | n + 1, some (k + 1) => deliverLoop n (some k) + 1
  | n + 1, none => deliverLoop n none + 1

/-- Observable outcome of one run of the `file_iterator` generator. -/
structure StreamRun where
  chunksDelivered : Nat
  removeAttempted : Bool
  removeSucceeded : Bool
  rmdirAttempted : Bool
  rmdirSucceeded : Bool
  raisedToCaller : Bool
deriving DecidableEq, Repr

/-- The `file_iterator` generator (lines 159-176). The loop yields chunks
until the file is exhausted or the consumer stops; the `finally` block then
runs exactly once — on normal exhaustion, on `GeneratorExit` from a close
after a disconnect, and on a downstream write error alike. Inside it,
`os.remove` and `os.rmdir` are each attempted once under an individual
`try/except Exception: pass`, so both are always attempted and no cleanup
failure propagates to the caller. -/
def file_iterator (nChunks : Nat) (budget : Option Nat) (removeFails rmdirFails : Bool) :
    StreamRun :=
  { chunksDelivered := deliverLoop nChunks budget
    removeAttempted := true
    removeSucceeded := !removeFails
    rmdirAttempted := true
    rmdirSucceeded := !rmdirFails
    raisedToCaller := false }

/-- The HTTP outcome of the handler: an `HTTPException` with status 400, an
`HTTPException` with status 500, or a `StreamingResponse`. -/
inductive Response where
  | clientError (detail : String)
  | serverError (detail : String)
  | streaming (filename : String) (run : StreamRun)
deriving DecidableEq, Repr

/-- Side effects of one request, in the vocabulary of the claims: whether the
scratch directory was created (`tempfile.mkdtemp`, line 130), whether the
retrieval engine was invoked (`run_download()`, line 154), and how many
cleanup attempts (the remove-file-then-remove-directory block) were made. -/
structure Trace where
  scratchCreated : Bool
  engineInvoked : Bool
  cleanupAttempts : Nat
deriving DecidableEq, Repr

/-- `os.path.basename` for the forward-slash paths the handler builds: the
characters after the last `/`. -/
def basename (p : String) : String :=
  String.mk ((p.data.reverse.takeWhile (fun c => c != '/')).reverse)

/-- The `GET /api/download` handler (lines 118-186).
Branches, in source order:
* URL fails the allow-list → `HTTPException(400, "Please provide a valid
  YouTube URL")`, before any side effect;
* `import yt_dlp` fails → `HTTPException(500, "Downloader unavailable: ...")`,
  still before `mkdtemp`;
* then the scratch directory is created and `run_download()` invokes the
  engine: a `DownloadError` is turned into `HTTPException(400, "Download
  error: ...")` and any other exception into `HTTPException(500, str(e))` —
  on both paths the `try` has no `finally`, so no cleanup is attempted;
* a reported success whose file does not exist raises
  `HTTPException(500, "Failed to download video")`, which the generic
  `except Exception` re-wraps as `HTTPException(500, str(e))` with
  `str(e) = "500: Failed to download video"` — again with no cleanup;
* otherwise a `StreamingResponse` over `file_iterator` is returned, whose
  generator performs the single cleanup attempt when it terminates. -/
def download_youtube (url : String) (env : Env) : Response × Trace :=
  if YOUTUBE_URL_RE_match url then
    if env.importable then
      match env.fetch with
      | .downloadError msg =>
        (.clientError ("Download error: " ++ msg), ⟨true, true, 0⟩)
      | .otherError msg =>
        (.serverError msg, ⟨true, true, 0⟩)
      | .ok filepath =>
        if env.fileExists then
          (.streaming (basename filepath)
            (file_iterator env.fileChunks env.consumerBudget env.removeFails env.rmdirFails),
           ⟨true, true, 1⟩)
        else
          (.serverError "500: Failed to download video", ⟨true, true, 0⟩)
    else
      (.serverError ("Downloader unavailable: " ++ env.importErrMsg), ⟨false, false, 0⟩)
  else
    (.clientError "Please provide a valid YouTube URL", ⟨false, false, 0⟩)

/-! ### Helper lemmas about the embedding -/

unseal List.merge List.mergeSort

theorem mapOrErr_ok_length {f : α → Option β} {msg : String} :
    ∀ {l : List α} {bs : List β}, mapOrErr f msg l = .ok bs → bs.length = l.length := by
  intro l
  induction l with
  | nil => intro bs h; simp only [mapOrErr, Except.ok.injEq] at h; simp [← h]
  | cons a as ih =>
    intro bs h
    simp only [mapOrErr] at h
    rcases hfa : f a with _ | b <;> rw [hfa] at h
    · cases h
    · rcases hrec : mapOrErr f msg as with e | bs' <;> rw [hrec] at h
      · cases h
      · cases h
        simp [ih hrec]

theorem mapOrErr_ok_mem {f : α → Option β} {msg : String} :
    ∀ {l : List α} {bs : List β}, mapOrErr f msg l = .ok bs →
      ∀ b ∈ bs, ∃ a ∈ l, f a = some b := by
  intro l
  induction l with
  | nil =>
    intro bs h
    simp only [mapOrErr, Except.ok.injEq] at h
    simp [← h]
  | cons a as ih =>
    intro bs h
    simp only [mapOrErr] at h
    rcases hfa : f a with _ | b <;> rw [hfa] at h
    · cases h
    · rcases hrec : mapOrErr f msg as with e | bs' <;> rw [hrec] at h
      · cases h
      · cases h
        intro x hx
        rcases List.mem_cons.mp hx with rfl | hx'
        · exact ⟨a, List.mem_cons_self a as, hfa⟩
        · rcases ih hrec x hx' with ⟨a', ha', hfa'⟩
          exact ⟨a', List.mem_cons_of_mem a ha', hfa'⟩

theorem mapOrErr_ok_of_isSome {f : α → Option β} (msg : String) :
    ∀ {l : List α}, (∀ a ∈ l, (f a).isSome) → ∃ bs, mapOrErr f msg l = .ok bs := by
  intro l
  induction l with
  | nil => exact fun _ => ⟨[], rfl⟩
  | cons a as ih =>
    intro h
    rcases Option.isSome_iff_exists.mp (h a (List.mem_cons_self a as)) with ⟨b, hb⟩
    rcases ih (fun a' ha' => h a' (List.mem_cons_of_mem a ha')) with ⟨bs', hbs'⟩
    exact ⟨b :: bs', by simp [mapOrErr, hb, hbs']⟩

theorem mapOrErr_ok_take {f : α → Option β} {msg : String} :
    ∀ {l : List α} {bs : List β} (j : Nat), mapOrErr f msg l = .ok bs →
      mapOrErr f msg (l.take j) = .ok (bs.take j) := by
  intro l
  induction l with
  | nil =>
    intro bs j h
    simp only [mapOrErr, Except.ok.injEq] at h
    simp [← h, mapOrErr]
  | cons a as ih =>
    intro bs j h
    simp only [mapOrErr] at h
    rcases hfa : f a with _ | b <;> rw [hfa] at h
    · cases h
    · rcases hrec : mapOrErr f msg as with e | bs' <;> rw [hrec] at h
      · cases h
      · cases h
        cases j with
        | zero => simp [mapOrErr]
        | succ j' => simp [mapOrErr, hfa, ih j' hrec]

theorem mapOrErr_ok_pairwise {f : α → Option β} {msg : String}
    {R : α → α → Prop} {S : β → β → Prop} :
    ∀ {l : List α} {bs : List β}, mapOrErr f msg l = .ok bs → l.Pairwise R →
      (∀ a ∈ l, ∀ a' ∈ l, ∀ b b', R a a' → f a = some b → f a' = some b' → S b b') →
      bs.Pairwise S := by
  intro l
  induction l with
  | nil =>
    intro bs h _ _
    simp only [mapOrErr, Except.ok.injEq] at h
    simp [← h]
  | cons a as ih =>
    intro bs h hp himp
    simp only [mapOrErr] at h
    rcases hfa : f a with _ | b <;> rw [hfa] at h
    · cases h
    · rcases hrec : mapOrErr f msg as with e | bs' <;> rw [hrec] at h
      · cases h
      · cases h
        rcases List.pairwise_cons.mp hp with ⟨hhead, htail⟩
        refine List.pairwise_cons.mpr ⟨?_, ?_⟩
        · intro b' hb'
          rcases mapOrErr_ok_mem hrec b' hb' with ⟨a', ha', hfa'⟩
          exact himp a (List.mem_cons_self a as) a' (List.mem_cons_of_mem a ha')
            b b' (hhead a' ha') hfa hfa'
        · exact ih hrec htail fun x hx y hy => himp x (List.mem_cons_of_mem a hx)
            y (List.mem_cons_of_mem a hy)

theorem keyLE_total (a b : Int × Int) : keyLE a b || keyLE b a := by
  simp only [keyLE, Bool.or_eq_true, Bool.and_eq_true, decide_eq_true_eq]
  omega

theorem keyLE_trans (a b c : Int × Int) (h1 : keyLE a b) (h2 : keyLE b c) : keyLE a c := by
  simp only [keyLE, Bool.or_eq_true, Bool.and_eq_true, decide_eq_true_eq] at h1 h2 ⊢
  omega

theorem pairLE_total (a b : (Int × Int) × StoredDoc) : pairLE a b || pairLE b a :=
  keyLE_total a.1 b.1

theorem pairLE_trans (a b c : (Int × Int) × StoredDoc)
    (h1 : pairLE a b) (h2 : pairLE b c) : pairLE a c :=
  keyLE_trans a.1 b.1 c.1 h1 h2

theorem keyedOf_eq_some {d : StoredDoc} {p : (Int × Int) × StoredDoc}
    (h : keyedOf d = some p) : sortKey d = some p.1 ∧ p.2 = d := by
  simp only [keyedOf, Option.map_eq_some'] at h
  rcases h with ⟨k, hk, rfl⟩
  exact ⟨hk, rfl⟩

theorem pySlice_sublist (l : List α) (limit : Int) : (pySlice l limit).Sublist l := by
  unfold pySlice
  split <;> exact List.take_sublist _ _

theorem sortKey_of_mkEntry {d : StoredDoc} {e : Entry} (hd : d.duration_ms.isSome)
    (h : mkEntry d = some e) : sortKey d = some (-e.points, e.duration_ms) := by
  rcases hv : d.duration_ms with _ | v
  · rw [hv] at hd; cases hd
  · simp only [mkEntry, hv] at h
    rcases hp : getIntField d.points 0 with _ | p <;> rw [hp] at h
    · cases h
    · rcases hl : getIntField d.level 1 with _ | lv <;> rw [hl] at h
      · cases h
      · rcases hm : getIntField (some v) 0 with _ | dm <;> rw [hm] at h
        · cases h
        · cases h
          simp only [getIntField] at hm
          have hdur : getIntField (some v) 1000000 = some dm := by
            simpa [getIntField] using hm
          simp [sortKey, hv, hp, hdur]

theorem stripPre_some_iff (p : List Char) :
    ∀ (s r : List Char), stripPre p s = some r ↔ s = p ++ r := by
  induction p with
  | nil => intro s r; simp [stripPre, eq_comm]
  | cons p ps ih =>
    intro s r
    cases s with
    | nil => simp [stripPre]
    | cons c cs =>
      simp only [stripPre, List.cons_append, List.cons.injEq]
      by_cases hpc : p = c
      · subst hpc; simp [ih cs r]
      · simp [hpc, Ne.symm hpc]

theorem afterScheme_decomp (s : List Char) :
    ∃ sch, (sch = [] ∨ sch = httpP ∨ sch = httpsP) ∧ s = sch ++ afterScheme s := by
  rcases h1 : stripPre httpsP s with _ | r
  · rcases h2 : stripPre httpP s with _ | r2
    · exact ⟨[], Or.inl rfl, by simp [afterScheme, h1, h2]⟩
    · exact ⟨httpP, Or.inr (Or.inl rfl), by
        simp only [afterScheme, h1, h2]
        exact (stripPre_some_iff _ _ _).mp h2⟩
  · exact ⟨httpsP, Or.inr (Or.inr rfl), by
      simp only [afterScheme, h1]
      exact (stripPre_some_iff _ _ _).mp h1⟩

theorem afterWWW_decomp (s : List Char) :
    ∃ www, (www = [] ∨ www = wwwP) ∧ s = www ++ afterWWW s := by
  rcases h1 : stripPre wwwP s with _ | r
  · exact ⟨[], Or.inl rfl, by simp [afterWWW, h1]⟩
  · exact ⟨wwwP, Or.inr rfl, by
      simp only [afterWWW, h1]
      exact (stripPre_some_iff _ _ _).mp h1⟩

theorem hostAndPath_decomp {s : List Char} (h : hostAndPath s = true) :
    ∃ host c rest, (host = hostYoutubeCom ∨ host = hostYoutuBe) ∧ c ≠ '\n' ∧
      s = host ++ '/' :: c :: rest := by
  unfold hostAndPath at h
  rcases h1 : stripPre ytcSlash s with _ | r <;> rw [h1] at h
  · rcases h2 : stripPre ytbSlash s with _ | r2 <;> rw [h2] at h
    · cases h
    · rcases r2 with _ | ⟨c, rest⟩
      · cases h
      · refine ⟨hostYoutuBe, c, rest, Or.inr rfl, by simpa [tailDotPlus] using h, ?_⟩
        have := (stripPre_some_iff _ _ _).mp h2
        simpa [ytbSlash, List.append_assoc] using this
  · rcases r with _ | ⟨c, rest⟩
    · cases h
    · refine ⟨hostYoutubeCom, c, rest, Or.inl rfl, by simpa [tailDotPlus] using h, ?_⟩
      have := (stripPre_some_iff _ _ _).mp h1
      simpa [ytcSlash, List.append_assoc] using this

/-- The unrolled pattern matches the (lowercased) input exactly when the input
decomposes as scheme, `www.`, host, `/`, and a remainder whose first
character is not a newline. -/
theorem matchChars_iff (s : List Char) :
    hostAndPath (afterWWW (afterScheme s)) = true ↔
      ∃ (sch www host : List Char) (c : Char) (rest : List Char),
        (sch = [] ∨ sch = httpP ∨ sch = httpsP) ∧
        (www = [] ∨ www = wwwP) ∧
        (host = hostYoutubeCom ∨ host = hostYoutuBe) ∧
        c ≠ '\n' ∧
        s = sch ++ www ++ host ++ '/' :: c :: rest := by
  constructor
  · intro h
    rcases afterScheme_decomp s with ⟨sch, hsch, hs1⟩
    rcases afterWWW_decomp (afterScheme s) with ⟨www, hwww, hs2⟩
    rcases hostAndPath_decomp h with ⟨host, c, rest, hhost, hc, hs3⟩
    refine ⟨sch, www, host, c, rest, hsch, hwww, hhost, hc, ?_⟩
    rw [hs1, hs2, hs3]
    simp [List.append_assoc]
  · rintro ⟨sch, www, host, c, rest, hsch, hwww, hhost, hc, rfl⟩
    have hc' : (c != '\n') = true := by simpa using hc
    rcases hsch with rfl | rfl | rfl <;> rcases hwww with rfl | rfl <;>
      rcases hhost with rfl | rfl <;> exact hc'

/-- The list the handler sorts and slices: its members come from `docs`, with
their sort keys attached. -/
theorem keyed_mem_facts {docs : List StoredDoc} {keyed : List ((Int × Int) × StoredDoc)}
    (hk : mapOrErr keyedOf "invalid literal for int()" docs = .ok keyed) :
    ∀ p ∈ keyed, sortKey p.2 = some p.1 ∧ p.2 ∈ docs := by
  intro p hp
  rcases mapOrErr_ok_mem hk p hp with ⟨d, hd, hfd⟩
  rcases keyedOf_eq_some hfd with ⟨hsk, h2⟩
  rw [h2]
  exact ⟨hsk, hd⟩

theorem docs_sorted_mem {docs : List StoredDoc} {keyed : List ((Int × Int) × StoredDoc)}
    (hk : mapOrErr keyedOf "invalid literal for int()" docs = .ok keyed) :
    ∀ d ∈ (keyed.mergeSort pairLE).map Prod.snd, d ∈ docs := by
  intro d hd
  rcases List.mem_map.mp hd with ⟨p, hp, rfl⟩
  exact (keyed_mem_facts hk p (List.mem_mergeSort.mp hp)).2

theorem docs_sorted_length {docs : List StoredDoc} {keyed : List ((Int × Int) × StoredDoc)}
    (hk : mapOrErr keyedOf "invalid literal for int()" docs = .ok keyed) :
    ((keyed.mergeSort pairLE).map Prod.snd).length = docs.length := by
  rw [List.length_map, (List.mergeSort_perm keyed pairLE).length_eq, mapOrErr_ok_length hk]

theorem get_leaderboard_ok_of_wellformed (docs : List StoredDoc) (limit : Int)
    (h : ∀ d ∈ docs, (sortKey d).isSome ∧ (mkEntry d).isSome) :
    ∃ entries, get_leaderboard docs limit = .ok entries := by
  have hks : ∀ d ∈ docs, (keyedOf d).isSome := by
    intro d hd
    rcases Option.isSome_iff_exists.mp (h d hd).1 with ⟨k, hk⟩
    simp [keyedOf, hk]
  rcases mapOrErr_ok_of_isSome "invalid literal for int()" hks with ⟨keyed, hkeyed⟩
  have hte : ∀ d ∈ pySlice ((keyed.mergeSort pairLE).map Prod.snd) limit, (mkEntry d).isSome := by
    intro d hd
    have hdocs : d ∈ docs :=
      docs_sorted_mem hkeyed d ((pySlice_sublist _ limit).mem hd)
    exact (h d hdocs).2
  rcases mapOrErr_ok_of_isSome "invalid literal for int()" hte with ⟨entries, hentries⟩
  exact ⟨entries, by simp only [get_leaderboard, hkeyed]; exact hentries⟩

theorem get_leaderboard_sorted {docs : List StoredDoc} {limit : Int} {entries : List Entry}
    (hdur : ∀ d ∈ docs, d.duration_ms.isSome)
    (h : get_leaderboard docs limit = .ok entries) :
    entries.Pairwise rankedBefore := by
  rcases hk : mapOrErr keyedOf "invalid literal for int()" docs with e | keyed
  · simp only [get_leaderboard, hk] at h
    cases h
  · simp only [get_leaderboard, hk] at h
    have hsorted : (keyed.mergeSort pairLE).Pairwise (fun a b => pairLE a b = true) :=
      List.sorted_mergeSort (fun a b c => pairLE_trans a b c) (fun a b => pairLE_total a b) keyed
    have hpairL : ((keyed.mergeSort pairLE).map Prod.snd).Pairwise docOrder := by
      rw [List.pairwise_map]
      refine hsorted.imp_of_mem ?_
      intro a b ha hb hab
      have hfa := keyed_mem_facts hk a (List.mem_mergeSort.mp ha)
      have hfb := keyed_mem_facts hk b (List.mem_mergeSort.mp hb)
      intro k k' hk1 hk2
      rw [hfa.1] at hk1
      rw [hfb.1] at hk2
      cases hk1
      cases hk2
      exact hab
    have hslice := hpairL.sublist (pySlice_sublist _ limit)
    refine mapOrErr_ok_pairwise h hslice ?_
    intro a ha a' ha' b b' hord hfa hfa'
    have hadocs : a ∈ docs := docs_sorted_mem hk a ((pySlice_sublist _ limit).mem ha)
    have hadocs' : a' ∈ docs := docs_sorted_mem hk a' ((pySlice_sublist _ limit).mem ha')
    have hka := sortKey_of_mkEntry (hdur a hadocs) hfa
    have hka' := sortKey_of_mkEntry (hdur a' hadocs') hfa'
    have := hord _ _ hka hka'
    simp only [keyLE, Bool.or_eq_true, Bool.and_eq_true, decide_eq_true_eq] at this
    unfold rankedBefore
    omega

/-! ### Claim C1 -/

/-- Claim C1 counterexample: two jobs that get past scratch acquisition (the
URL matches and the engine module imports, so `mkdtemp` runs) but reach the
`FetchFailed` terminal state (engine raises `DownloadError`) or the
missing-output-file terminal state make zero cleanup attempts, not exactly
one: the only cleanup code sits in `file_iterator`'s `finally`, which never
runs on these paths. -/
theorem download_fetchFailed_no_cleanup_cex :
    (download_youtube "https://youtube.com/watch?v=a"
        ⟨true, "", FetchResult.downloadError "Video unavailable", true, 0, none, false, false⟩).2 =
      ⟨true, true, 0⟩ ∧
    (download_youtube "https://youtube.com/watch?v=a"
        ⟨true, "", FetchResult.ok "/tmp/yt_ab/v.mp4", false, 0, none, false, false⟩).2 =
      ⟨true, true, 0⟩ := by
  decide

/-- Claim C1 (amended): for a job that gets past scratch acquisition, exactly
one cleanup attempt is made if and only if the job reaches the streaming
step; on the `FetchFailed` and missing-output-file paths the scratch
directory is created but no cleanup attempt is made (never more than one
attempt on any path). -/
theorem download_cleanup_iff_streaming (url : String) (env : Env)
    (h : (download_youtube url env).2.scratchCreated = true) :
    ((download_youtube url env).2.cleanupAttempts = 1 ↔
      ∃ fn run, (download_youtube url env).1 = Response.streaming fn run) ∧
    (download_youtube url env).2.cleanupAttempts ≤ 1 := by
  cases hu : YOUTUBE_URL_RE_match url <;>
    cases hi : env.importable <;>
    rcases hf : env.fetch with fp | m | m <;>
    cases hx : env.fileExists <;>
    simp_all [download_youtube]

theorem download_cleanup_iff_streaming_witness :
    (((download_youtube "https://youtube.com/watch?v=a"
          ⟨true, "", FetchResult.ok "/tmp/yt_q/v.mp4", true, 2, none, false, false⟩).2.cleanupAttempts
        = 1 ↔
      ∃ fn run,
        (download_youtube "https://youtube.com/watch?v=a"
            ⟨true, "", FetchResult.ok "/tmp/yt_q/v.mp4", true, 2, none, false, false⟩).1 =
          Response.streaming fn run) ∧
     (download_youtube "https://youtube.com/watch?v=a"
         ⟨true, "", FetchResult.ok "/tmp/yt_q/v.mp4", true, 2, none, false, false⟩).2.cleanupAttempts
       ≤ 1) :=
  download_cleanup_iff_streaming _ _ (by decide)

/-! ### Claim C5 -/

/-- Claim C5: whenever the handler reaches the streaming step, the returned
stream's run attempts the file removal and the directory removal no matter
how the stream terminates (the environment's `consumerBudget` ranges over
full drain, disconnect and write error), and no cleanup failure is raised to
the caller — for every combination of `removeFails` and `rmdirFails`. -/
theorem streaming_cleanup_runs (url : String) (env : Env) (fn : String) (run : StreamRun)
    (h : (download_youtube url env).1 = Response.streaming fn run) :
    run.removeAttempted = true ∧ run.rmdirAttempted = true ∧ run.raisedToCaller = false := by
  cases hu : YOUTUBE_URL_RE_match url <;>
    cases hi : env.importable <;>
    rcases hf : env.fetch with fp | m | m <;>
    cases hx : env.fileExists <;>
    simp_all [download_youtube]
  rcases h with ⟨h1, h2⟩
  rw [← h2]
  exact ⟨rfl, rfl, rfl⟩

theorem streaming_cleanup_runs_witness :
    ((⟨1, true, false, true, true, false⟩ : StreamRun).removeAttempted = true ∧
     (⟨1, true, false, true, true, false⟩ : StreamRun).rmdirAttempted = true ∧
     (⟨1, true, false, true, true, false⟩ : StreamRun).raisedToCaller = false) :=
  streaming_cleanup_runs "https://youtu.be/abc"
    ⟨true, "", FetchResult.ok "/tmp/yt_x/v.mp4", true, 5, some 1, true, false⟩
    "v.mp4" ⟨1, true, false, true, true, false⟩ (by decide)

/-! ### Claim C6 -/

/-- Claim C6: a URL that fails the allow-list is rejected with the 400 detail
"Please provide a valid YouTube URL" before any side effect: no scratch
directory is created, the engine is never invoked and no cleanup ever runs,
whatever the rest of the environment would have done. -/
theorem download_reject_no_side_effects (url : String) (env : Env)
    (h : YOUTUBE_URL_RE_match url = false) :
    download_youtube url env =
      (Response.clientError "Please provide a valid YouTube URL", ⟨false, false, 0⟩) := by
  simp [download_youtube, h]

theorem download_reject_no_side_effects_witness :
    YOUTUBE_URL_RE_match "https://example.com/video" = false ∧
    download_youtube "https://example.com/video"
        ⟨true, "", FetchResult.ok "/tmp/yt_a/v.mp4", true, 3, none, false, false⟩ =
      (Response.clientError "Please provide a valid YouTube URL", ⟨false, false, 0⟩) :=
  ⟨by decide, download_reject_no_side_effects _ _ (by decide)⟩

/-! ### Claim C8 -/

/-- Claim C8: for a URL that passes the allow-list, a `DownloadError` from
the engine is reported as a client error whose detail embeds the engine's
message; a failing `import yt_dlp` is reported as a server error; and a
missing output file after a reported success is reported as a server error
(the inner 500 `HTTPException` re-wrapped by the generic handler). -/
theorem download_error_status_mapping (url : String) (env : Env)
    (h : YOUTUBE_URL_RE_match url = true) :
    (env.importable = false →
      (download_youtube url env).1 =
        Response.serverError ("Downloader unavailable: " ++ env.importErrMsg)) ∧
    (∀ msg, env.importable = true → env.fetch = FetchResult.downloadError msg →
      (download_youtube url env).1 = Response.clientError ("Download error: " ++ msg)) ∧
    (∀ fp, env.importable = true → env.fetch = FetchResult.ok fp → env.fileExists = false →
      (download_youtube url env).1 = Response.serverError "500: Failed to download video") := by
  refine ⟨?_, ?_, ?_⟩ <;> intros <;> simp_all [download_youtube]

theorem download_error_status_mapping_witness :
    (download_youtube "https://youtu.be/x"
        ⟨false, "No module named yt_dlp", FetchResult.ok "f", true, 0, none, false, false⟩).1 =
      Response.serverError "Downloader unavailable: No module named yt_dlp" ∧
    (download_youtube "https://youtu.be/x"
        ⟨true, "", FetchResult.downloadError "Video unavailable", true, 0, none, false, false⟩).1 =
      Response.clientError "Download error: Video unavailable" ∧
    (download_youtube "https://youtu.be/x"
        ⟨true, "", FetchResult.ok "/tmp/yt_c/v.mp4", false, 0, none, false, false⟩).1 =
      Response.serverError "500: Failed to download video" :=
  ⟨(download_error_status_mapping "https://youtu.be/x" _ (by decide)).1 rfl,
   (download_error_status_mapping "https://youtu.be/x" _ (by decide)).2.1
     "Video unavailable" rfl rfl,
   (download_error_status_mapping "https://youtu.be/x" _ (by decide)).2.2
     "/tmp/yt_c/v.mp4" rfl rfl rfl⟩

/-! ### Claim C4 -/

/-- Claim C4 counterexample: the URL whose characters are
`https://youtube.com/` followed by a newline consists, case-insensitively,
of a scheme, the host `youtube.com`, a slash and a non-empty remainder — so
the claim accepts it — yet `YOUTUBE_URL_RE` rejects it, because `.` in the
pattern does not match a newline. -/
theorem url_allowlist_newline_cex :
    claimedUrlAccept "https://youtube.com/\n" ∧
    YOUTUBE_URL_RE_match "https://youtube.com/\n" = false :=
  ⟨⟨httpsP, [], hostYoutubeCom, ['\n'], Or.inr (Or.inr rfl), Or.inl rfl, Or.inl rfl,
    by decide, by decide⟩, by decide⟩

/-- Claim C2 counterexample: a stored record whose `points` field holds the
non-numeric string "abc" is not coerced to 0 — `int("abc")` raises, the
handler's `except` turns it into an HTTP 500, so `getLeaderboard` fails
instead of sorting the record last. -/
theorem leaderboard_nonnumeric_raises_cex :
    get_leaderboard [⟨none, some (.vStr "abc"), none, none⟩] 20 =
      Except.error "invalid literal for int()" := rfl

/-- Claim C2 (amended): records with missing `points` or `duration_ms` do not
make `getLeaderboard` raise — when every record's fields are absent or
integer-convertible the query succeeds — and a missing `points` is compared
as 0 and a missing `duration_ms` as 1,000,000 in the sort key; a present but
non-integer-convertible value, by contrast, fails the whole query. -/
theorem leaderboard_missing_defaults :
    (∀ (docs : List StoredDoc) (limit : Int),
      (∀ d ∈ docs, (sortKey d).isSome ∧ (mkEntry d).isSome) →
      ∃ entries, get_leaderboard docs limit = .ok entries) ∧
    (∀ (d : StoredDoc) (k : Int × Int), sortKey d = some k →
      (d.points = none → k.1 = 0) ∧ (d.duration_ms = none → k.2 = 1000000)) := by
  constructor
  · exact get_leaderboard_ok_of_wellformed
  · intro d k hk
    constructor
    · intro hp
      have h0 : getIntField d.points 0 = some 0 := by rw [hp]; rfl
      rcases hm : getIntField d.duration_ms 1000000 with _ | dur
      · have hnone : sortKey d = none := by unfold sortKey; rw [h0, hm]
        rw [hnone] at hk; cases hk
      · have hsome : sortKey d = some (-0, dur) := by unfold sortKey; rw [h0, hm]
        rw [hsome] at hk
        cases hk
        show (-0 : Int) = 0
        decide
    · intro hm
      have h6 : getIntField d.duration_ms 1000000 = some 1000000 := by rw [hm]; rfl
      rcases hp : getIntField d.points 0 with _ | p
      · have hnone : sortKey d = none := by unfold sortKey; rw [hp, h6]
        rw [hnone] at hk; cases hk
      · have hsome : sortKey d = some (-p, 1000000) := by unfold sortKey; rw [hp, h6]
        rw [hsome] at hk
        cases hk
        rfl

theorem leaderboard_missing_defaults_witness :
    (∃ entries,
      get_leaderboard [(⟨none, none, none, none⟩ : StoredDoc)] 20 = Except.ok entries) ∧
    ((0, 1000000) : Int × Int).1 = 0 ∧ (((0, 1000000) : Int × Int)).2 = 1000000 :=
  ⟨leaderboard_missing_defaults.1 [⟨none, none, none, none⟩] 20 (by decide),
   (leaderboard_missing_defaults.2 ⟨none, none, none, none⟩ (0, 1000000) (by decide)).1 rfl,
   (leaderboard_missing_defaults.2 ⟨none, none, none, none⟩ (0, 1000000) (by decide)).2 rfl⟩

/-! ### Claim C3 -/

/-- Claim C3 counterexample: two stored records with equal points, one with
`duration_ms` 5 and one with `duration_ms` missing, come back with reported
durations 5 then 0 — the returned sequence is not sorted by duration
ascending within the equal-points group, because the missing duration was
ordered as 1,000,000 but reported as 0. -/
theorem leaderboard_sorted_claim_cex :
    get_leaderboard
        [⟨none, some (.vInt 100), none, none⟩, ⟨none, some (.vInt 100), none, some (.vInt 5)⟩]
        20 =
      Except.ok [⟨PyVal.vStr "Player", 100, 1, 5⟩, ⟨PyVal.vStr "Player", 100, 1, 0⟩] ∧
    ¬ rankedBefore ⟨PyVal.vStr "Player", 100, 1, 5⟩ ⟨PyVal.vStr "Player", 100, 1, 0⟩ :=
  ⟨rfl, by simp [rankedBefore]⟩

/-- Claim C3 (amended): for every list of stored records in which every
record's `duration_ms` field is present, the sequence returned by
`getLeaderboard` is sorted by points descending and, among equal points, by
`duration_ms` ascending; in particular the Ana/Bo scenario returns Bo before
Ana. -/
theorem leaderboard_sorted :
    (∀ (docs : List StoredDoc) (limit : Int) (entries : List Entry),
      (∀ d ∈ docs, d.duration_ms.isSome) →
      get_leaderboard docs limit = .ok entries →
      entries.Pairwise rankedBefore) ∧
    get_leaderboard
        [⟨some (.vStr "Ana"), some (.vInt 100), some (.vInt 2), some (.vInt 5000)⟩,
         ⟨some (.vStr "Bo"), some (.vInt 100), some (.vInt 1), some (.vInt 3000)⟩] 20 =
      Except.ok [⟨PyVal.vStr "Bo", 100, 1, 3000⟩, ⟨PyVal.vStr "Ana", 100, 2, 5000⟩] :=
  ⟨fun _ _ _ hdur h => get_leaderboard_sorted hdur h, rfl⟩

theorem leaderboard_sorted_witness :
    List.Pairwise rankedBefore
      [(⟨PyVal.vStr "Bo", 100, 1, 3000⟩ : Entry), ⟨PyVal.vStr "Ana", 100, 2, 5000⟩] :=
  leaderboard_sorted.1
    [⟨some (.vStr "Ana"), some (.vInt 100), some (.vInt 2), some (.vInt 5000)⟩,
     ⟨some (.vStr "Bo"), some (.vInt 100), some (.vInt 1), some (.vInt 3000)⟩] 20
    [⟨PyVal.vStr "Bo", 100, 1, 3000⟩, ⟨PyVal.vStr "Ana", 100, 2, 5000⟩] (by decide) rfl

/-! ### Claim C7 -/

/-- Claim C7: for a positive limit, the returned list has at most
`min limit (number of stored records)` entries, and the handler invoked
without a limit runs with the default 20. -/
theorem leaderboard_limit_bound :
    (∀ (docs : List StoredDoc) (limit : Int) (entries : List Entry),
      0 < limit → get_leaderboard docs limit = .ok entries →
      entries.length ≤ min limit.toNat docs.length) ∧
    (∀ docs : List StoredDoc, get_leaderboard_default docs = get_leaderboard docs 20) := by
  constructor
  · intro docs limit entries hpos h
    rcases hk : mapOrErr keyedOf "invalid literal for int()" docs with e | keyed
    · simp only [get_leaderboard, hk] at h; cases h
    · simp only [get_leaderboard, hk] at h
      have hlen := mapOrErr_ok_length h
      rw [hlen]
      unfold pySlice
      rw [if_pos (le_of_lt hpos), List.length_take, docs_sorted_length hk]
  · intro docs
    rfl

theorem leaderboard_limit_bound_witness :
    ([(⟨PyVal.vStr "Ana", 100, 2, 5000⟩ : Entry)].length ≤
      min (1 : Int).toNat
        [(⟨some (.vStr "Ana"), some (.vInt 100), some (.vInt 2), some (.vInt 5000)⟩ :
            StoredDoc)].length) ∧
    get_leaderboard_default [] = get_leaderboard [] 20 :=
  ⟨leaderboard_limit_bound.1
      [⟨some (.vStr "Ana"), some (.vInt 100), some (.vInt 2), some (.vInt 5000)⟩] 1
      [⟨PyVal.vStr "Ana", 100, 2, 5000⟩] (by decide) rfl,
   leaderboard_limit_bound.2 []⟩

/-! ### Claim C9 -/

/-- Claim C9: a record with a missing `duration_ms` is reported with
`duration_ms = 0` in the returned entry although it was ordered with sort-key
component 1,000,000 (worst within its points group); a missing `name` is
reported as "Player" and a missing `level` as 1; and every entry returned by
`getLeaderboard` arises from a stored document this way. -/
theorem leaderboard_report_defaults :
    (∀ (d : StoredDoc) (e : Entry), mkEntry d = some e →
      (d.duration_ms = none →
        e.duration_ms = 0 ∧ sortKey d = some (-e.points, 1000000)) ∧
      (d.name = none → e.name = PyVal.vStr "Player") ∧
      (d.level = none → e.level = 1)) ∧
    (∀ (docs : List StoredDoc) (limit : Int) (entries : List Entry),
      get_leaderboard docs limit = .ok entries →
      ∀ e ∈ entries, ∃ d ∈ docs, mkEntry d = some e) := by
  constructor
  · intro d e hme
    rcases hp : getIntField d.points 0 with _ | p <;> simp only [mkEntry, hp] at hme
    · cases hme
    · rcases hl : getIntField d.level 1 with _ | lv <;> rw [hl] at hme
      · cases hme
      · rcases hm : getIntField d.duration_ms 0 with _ | dm <;> rw [hm] at hme
        · cases hme
        · cases hme
          refine ⟨?_, ?_, ?_⟩
          · intro hdm
            rw [hdm] at hm
            simp only [getIntField] at hm
            cases hm
            refine ⟨rfl, ?_⟩
            have hdur : getIntField d.duration_ms 1000000 = some 1000000 := by
              rw [hdm]; rfl
            simp [sortKey, hp, hdur]
          · intro hn; simp [hn]
          · intro hl0
            rw [hl0] at hl
            simp only [getIntField] at hl
            cases hl
            rfl
  · intro docs limit entries h e he
    rcases hk : mapOrErr keyedOf "invalid literal for int()" docs with er | keyed
    · simp only [get_leaderboard, hk] at h; cases h
    · simp only [get_leaderboard, hk] at h
      rcases mapOrErr_ok_mem h e he with ⟨d, hd, hmd⟩
      exact ⟨d, docs_sorted_mem hk d ((pySlice_sublist _ limit).mem hd), hmd⟩

theorem leaderboard_report_defaults_witness :
    ((⟨PyVal.vStr "Player", 7, 1, 0⟩ : Entry).duration_ms = 0 ∧
      sortKey ⟨none, some (.vInt 7), none, none⟩ =
        some (-(⟨PyVal.vStr "Player", 7, 1, 0⟩ : Entry).points, 1000000)) ∧
    (⟨PyVal.vStr "Player", 7, 1, 0⟩ : Entry).name = PyVal.vStr "Player" ∧
    (⟨PyVal.vStr "Player", 7, 1, 0⟩ : Entry).level = 1 ∧
    (∃ d ∈ [(⟨none, some (.vInt 7), none, none⟩ : StoredDoc)],
      mkEntry d = some ⟨PyVal.vStr "Player", 7, 1, 0⟩) :=
  ⟨(leaderboard_report_defaults.1 ⟨none, some (.vInt 7), none, none⟩
      ⟨PyVal.vStr "Player", 7, 1, 0⟩ (by decide)).1 rfl,
   (leaderboard_report_defaults.1 ⟨none, some (.vInt 7), none, none⟩
      ⟨PyVal.vStr "Player", 7, 1, 0⟩ (by decide)).2.1 rfl,
   (leaderboard_report_defaults.1 ⟨none, some (.vInt 7), none, none⟩
      ⟨PyVal.vStr "Player", 7, 1, 0⟩ (by decide)).2.2 rfl,
   leaderboard_report_defaults.2 [⟨none, some (.vInt 7), none, none⟩] 20
     [⟨PyVal.vStr "Player", 7, 1, 0⟩] rfl ⟨PyVal.vStr "Player", 7, 1, 0⟩ (by simp)⟩

/-! ### Claim C10 -/

/-- Claim C10: `getLeaderboard` with limit 0 returns the empty list, and with
a negative limit `-k` (0 < k < n) it returns the first n − k entries of the
fully sorted sequence — Python slice semantics, not a rejection and not "at
most |limit| entries". -/
theorem leaderboard_slice_semantics :
    (∀ (docs : List StoredDoc) (entries : List Entry),
      get_leaderboard docs 0 = .ok entries → entries = []) ∧
    (∀ (docs : List StoredDoc) (k : Nat) (full entries : List Entry),
      0 < k → k < docs.length →
      get_leaderboard docs (docs.length : Int) = .ok full →
      get_leaderboard docs (-(k : Int)) = .ok entries →
      entries = full.take (docs.length - k)) := by
  constructor
  · intro docs entries h
    rcases hk : mapOrErr keyedOf "invalid literal for int()" docs with e | keyed
    · simp only [get_leaderboard, hk] at h; cases h
    · simp only [get_leaderboard, hk] at h
      have hsl : pySlice ((keyed.mergeSort pairLE).map Prod.snd) 0 = [] := by
        unfold pySlice
        simp
      rw [hsl] at h
      simp only [mapOrErr, Except.ok.injEq] at h
      exact h.symm
  · intro docs k full entries hk0 hkn hfull hneg
    rcases hk : mapOrErr keyedOf "invalid literal for int()" docs with e | keyed
    · simp only [get_leaderboard, hk] at hfull; cases hfull
    · simp only [get_leaderboard, hk] at hfull hneg
      have hLlen : ((keyed.mergeSort pairLE).map Prod.snd).length = docs.length :=
        docs_sorted_length hk
      have hfull' : pySlice ((keyed.mergeSort pairLE).map Prod.snd) (docs.length : Int) =
          (keyed.mergeSort pairLE).map Prod.snd := by
        unfold pySlice
        rw [if_pos (by omega), Int.toNat_ofNat, ← hLlen, List.take_length]
      have hneg' : pySlice ((keyed.mergeSort pairLE).map Prod.snd) (-(k : Int)) =
          ((keyed.mergeSort pairLE).map Prod.snd).take (docs.length - k) := by
        unfold pySlice
        rw [if_neg (by omega), neg_neg, Int.toNat_ofNat, hLlen]
      rw [hfull'] at hfull
      rw [hneg'] at hneg
      have htake := mapOrErr_ok_take (docs.length - k) hfull
      exact (Except.ok.inj (htake.symm.trans hneg)).symm

theorem leaderboard_slice_semantics_witness :
    ([] : List Entry) = [] ∧
    [(⟨PyVal.vStr "Bo", 100, 1, 3000⟩ : Entry)] =
      ([⟨PyVal.vStr "Bo", 100, 1, 3000⟩, ⟨PyVal.vStr "Ana", 100, 2, 5000⟩] : List Entry).take
        ([(⟨some (.vStr "Ana"), some (.vInt 100), some (.vInt 2), some (.vInt 5000)⟩ :
            StoredDoc),
          ⟨some (.vStr "Bo"), some (.vInt 100), some (.vInt 1), some (.vInt 3000)⟩].length - 1) :=
  ⟨leaderboard_slice_semantics.1 [] [] rfl,
   leaderboard_slice_semantics.2
     [⟨some (.vStr "Ana"), some (.vInt 100), some (.vInt 2), some (.vInt 5000)⟩,
      ⟨some (.vStr "Bo"), some (.vInt 100), some (.vInt 1), some (.vInt 3000)⟩] 1
     [⟨PyVal.vStr "Bo", 100, 1, 3000⟩, ⟨PyVal.vStr "Ana", 100, 2, 5000⟩]
     [⟨PyVal.vStr "Bo", 100, 1, 3000⟩] (by decide) (by decide) rfl rfl⟩

/-- Claim C4 (amended): the download endpoint accepts `url` if and only if it
consists (case-insensitively) of an optional `http://` or `https://` scheme,
an optional `www.`, a host equal to `youtube.com` or `youtu.be`, a `/`, and
a non-empty remainder whose first character is not a newline. -/
theorem url_allowlist_iff (url : String) :
    YOUTUBE_URL_RE_match url = true ↔
      ∃ (sch www host : List Char) (c : Char) (rest : List Char),
        (sch = [] ∨ sch = httpP ∨ sch = httpsP) ∧
        (www = [] ∨ www = wwwP) ∧
        (host = hostYoutubeCom ∨ host = hostYoutuBe) ∧
        c ≠ '\n' ∧
        lowerData url = sch ++ www ++ host ++ '/' :: c :: rest :=
  matchChars_iff (lowerData url)

end Main
